import Mathlib

/-!
Verification development for the serverless glue handlers of the
youtube-stretch-routine-builder repository.  The definitions below are a
shallow embedding of the JavaScript code under api/ (report-error.js,
slack-commands.js, slack-actions.js together with the slack-notify handler,
slack-claude.js, and the submit-feedback handler): pure functions become
Lean functions, the in-memory conversation map becomes explicit state
passing, code that can throw returns Except, and the opaque cryptographic
digest and the remote HTTP services are taken as parameters that the
theorems quantify over.  Strings are modelled at character granularity;
every string the verifier compares is ASCII, where characters and bytes
coincide.
-/

/- ## JavaScript string and number helpers -/

/-- JavaScript truthiness of an optional string (a missing header or
environment variable, or the empty string, is falsy). -/
def falsyStr (o : Option String) : Bool :=
  match o with
  | none => true
  | some s => s.length == 0

/-- Leading decimal digits of a character list, read the way JavaScript
parseInt reads them; none when no digit is present (NaN). -/
def leadingDigits (cs : List Char) : Option Nat :=
  let ds := cs.takeWhile Char.isDigit
  if ds.isEmpty then none
  else some (ds.foldl (fun n c => n * 10 + (c.toNat - 48)) 0)

/-- Model of JavaScript parseInt applied to a decimal string: skip leading
whitespace, read an optional sign and then leading digits; none models NaN.
The hexadecimal auto-detection of parseInt is not modelled, since Slack
request timestamps are decimal. -/
def parseIntJs (s : String) : Option Int :=
  let cs := s.data.dropWhile (fun c => c == ' ' || c == '\t' || c == '\n' || c == '\r')
  match cs with
  | '-' :: rest => (leadingDigits rest).map (fun n => -(n : Int))
  | '+' :: rest => (leadingDigits rest).map (fun n => (n : Int))
  | rest => (leadingDigits rest).map (fun n => (n : Int))

/- ## Signature verifier (slack-commands.js lines 463-479; the identical
function also appears in slack-actions.js and slack-claude.js) -/

/-- Replay-window check: Math.abs(now - parseInt(timestamp)) > 300.
A non-numeric timestamp parses to NaN, and NaN > 300 is false in
JavaScript, so a non-numeric timestamp passes the window check. -/
def tsOutsideWindow (now : Int) (ts : String) : Bool :=
  match parseIntJs ts with
  | none => false
  | some t => 300 < (now - t).natAbs

/-- Model of Node crypto.timingSafeEqual on Buffer.from of the two
strings: it throws (Except.error) when the byte lengths differ, and
otherwise compares contents.  Both arguments in the verifier are ASCII
("v0=" plus hex material), where character length equals byte length. -/
def timingSafeEqual (a b : String) : Except Unit Bool :=
  if a.length = b.length then Except.ok (a == b) else Except.error ()

/-- verifySlackSignature.  hmacHex stands for the hex-encoded HMAC-SHA256
digest computed by crypto.createHmac(secret).update(msg).digest of the Node
standard library; the code treats it as a black-box keyed hash, so the
embedding takes it as a parameter (key, then message).  body is the string
the code hashes: req.body when it is already a string, JSON.stringify of
req.body otherwise.  The Except result records that timingSafeEqual throws
on buffers of different length, and that exception escapes this function. -/
def verifySlackSignature (hmacHex : String → String → String) (now : Int)
    (timestamp signature signingSecret : Option String) (body : String) :
    Except Unit Bool :=
  if falsyStr timestamp || falsyStr signature || falsyStr signingSecret then
    Except.ok false
  else
    let ts := timestamp.getD ""
    let sig := signature.getD ""
    let secret := signingSecret.getD ""
    if tsOutsideWindow now ts then Except.ok false
    else
      let sigBasestring := "v0:" ++ ts ++ ":" ++ body
      let mySignature := "v0=" ++ hmacHex secret sigBasestring
      timingSafeEqual mySignature sig

/-- Concrete stand-in for the digest function, used only for concrete
witnesses and counterexamples.  The single property the development uses
is that, like any SHA-256 hex digest, its output always has 64
characters. -/
def hexDigestStub (_key _msg : String) : String :=
  String.mk (List.replicate 64 '0')

/- ## truncate (report-error.js lines 209-212; the same three lines appear
in the submit-feedback and slack-notify handlers) -/

/-- truncate: an empty (falsy) string gives the empty string; a string
longer than maxLen is cut to its first maxLen characters with a trailing
ellipsis; any other string passes through unchanged. -/
def truncate (s : String) (maxLen : Nat) : String :=
  if s.length = 0 then ""
  else if maxLen < s.length then String.mk (s.data.take maxLen) ++ "..."
  else s

/- ## Error grouping (report-error.js lines 76-87) -/

/-- One reported client-side error, with the fields grouping looks at.
Fields that the grouping key and count never touch (source, line, column,
stack) are elided from the embedding. -/
structure ErrRec where
  type : String
  message : String
  severity : String
  timestamp : String
deriving DecidableEq, Repr

/-- A group produced by groupErrors: the spread copy of the first error of
the group plus its occurrence count. -/
structure ErrGroup where
  err : ErrRec
  count : Nat
deriving DecidableEq, Repr

/-- The grouping key: the template string type + ":" + message. -/
def errKey (e : ErrRec) : String := e.type ++ ":" ++ e.message

/-- groups[key].count++ on the accumulator. -/
def bumpCount (acc : List (String × ErrGroup)) (k : String) :
    List (String × ErrGroup) :=
  acc.map (fun p => if p.1 = k then (p.1, ⟨p.2.err, p.2.count + 1⟩) else p)

/-- Whether the groups object already has the key. -/
def hasKey (acc : List (String × ErrGroup)) (k : String) : Bool :=
  acc.any (fun p => p.1 == k)

/-- The loop of groupErrors over the incoming error list.  A JavaScript
object whose keys all contain ":" enumerates its properties in insertion
order, which the association list preserves. -/
def groupErrorsGo (acc : List (String × ErrGroup)) :
    List ErrRec → List (String × ErrGroup)
  | [] => acc
  | e :: rest =>
    let k := errKey e
    if hasKey acc k then groupErrorsGo (bumpCount acc k) rest
    else groupErrorsGo (acc ++ [(k, ⟨e, 1⟩)]) rest

/-- groupErrors: Object.values of the accumulated groups object. -/
def groupErrors (errs : List ErrRec) : List ErrGroup :=
  (groupErrorsGo [] errs).map Prod.snd

/-- The handler of report-error.js creates exactly one tracker issue per
group and reports issuesCreated = results.length. -/
def issuesCreated (errs : List ErrRec) : Nat :=
  (groupErrors errs).length

/- ## Message splitting (slack-claude.js, postToSlack, lines 139-177) -/

/-- The backwards scan of String.lastIndexOf for a newline at an index of
at most limit: walk the characters, remembering the last newline index seen
so far, and stop once the index passes the limit. -/
def lastNlGo (limit : Nat) : List Char → Nat → Option Nat → Option Nat
  | [], _, best => best
  | c :: rest, i, best =>
    if limit < i then best
    else lastNlGo limit rest (i + 1) (if c = '\n' then some i else best)

/-- remaining.lastIndexOf of a newline with fromIndex limit; none models
the -1 of a failed search. -/
def lastIndexOfNl (l : List Char) (limit : Nat) : Option Nat :=
  lastNlGo limit l 0 none

/-- The split index one loop iteration chooses when more than 3900
characters remain: the last newline at index at most 3900, unless that
index is below 1950 (maxLen / 2) or there is none, in which case the hard
cut at 3900 is used. -/
def chooseSplitIdx (rem : List Char) : Nat :=
  match lastIndexOfNl rem 3900 with
  | some i => if i < 1950 then 3900 else i
  | none => 3900

theorem chooseSplitIdx_ge (rem : List Char) : 1950 ≤ chooseSplitIdx rem := by
  unfold chooseSplitIdx
  cases h : lastIndexOfNl rem 3900 with
  | none => simp
  | some i =>
    by_cases hi : i < 1950
    · simp [hi]
    · simp [hi]
      omega

/-- The chunking loop of postToSlack: while text remains, emit it whole
when at most 3900 characters are left, and otherwise cut at the chosen
split index and continue with the rest. -/
def splitChunks (rem : List Char) : List (List Char) :=
  if rem.length = 0 then []
  else if rem.length ≤ 3900 then [rem]
  else rem.take (chooseSplitIdx rem) :: splitChunks (rem.drop (chooseSplitIdx rem))
termination_by rem.length
decreasing_by
  have h := chooseSplitIdx_ge rem
  simp only [List.length_drop]
  omega

/-- The chunks postToSlack sends for a reply text, one chat.postMessage
call per chunk, in order. -/
def postToSlackChunks (text : String) : List (List Char) :=
  splitChunks text.data

/- ## Conversation cache (slack-claude.js lines 55-75 and 179-191) -/

/-- One entry of a thread's conversation history. -/
structure ChatMsg where
  role : String
  content : String
deriving DecidableEq, Repr

/-- The trim step: if (history.length > 20) history.splice(0,
history.length - 20) — keep the last 20 entries. -/
def trimHistory (h : List ChatMsg) : List ChatMsg :=
  if 20 < h.length then h.drop (h.length - 20) else h

/-- The handler pushes the incoming user message and then trims. -/
def appendUserMsg (h : List ChatMsg) (text : String) : List ChatMsg :=
  trimHistory (h ++ [⟨"user", text⟩])

/-- The handler pushes the assistant reply after the trim already ran; no
second trim follows it. -/
def appendAssistantMsg (h : List ChatMsg) (text : String) : List ChatMsg :=
  h ++ [⟨"assistant", text⟩]

/-- One full handler turn on a thread's history: push user message, trim
to 20, call the model, push the assistant reply. -/
def conversationTurn (h : List ChatMsg) (userText assistantText : String) :
    List ChatMsg :=
  appendAssistantMsg (appendUserMsg h userText) assistantText

/-- The conversations Map, keyed by channel:threadTs. -/
abbrev ConvMap : Type := List (String × List ChatMsg)

/-- conversations.get(contextKey) || []. -/
def convGet (m : ConvMap) (k : String) : List ChatMsg :=
  match m with
  | [] => []
  | (k', v) :: rest => if k' == k then v else convGet rest k

/-- conversations.set(contextKey, history): replace the stored value when
the key exists, append the pair otherwise. -/
def convSet (m : ConvMap) (k : String) (v : List ChatMsg) : ConvMap :=
  if m.any (fun p => p.1 == k) then
    m.map (fun p => if p.1 == k then (k, v) else p)
  else m ++ [(k, v)]

/-- The cache mutation one handled message performs on the map. -/
def handleTurn (m : ConvMap) (k : String) (userText assistantText : String) :
    ConvMap :=
  convSet m k (conversationTurn (convGet m k) userText assistantText)

/-- The body of cleanupConversations: iterate over the live map in
insertion order; delete a key when its history is empty, and otherwise
delete it whenever the live size (kept entries plus the not yet visited
ones, including the current entry) still exceeds 100.  Deleting the entry
under iteration is safe on a JavaScript Map and leaves the remaining
iteration order unchanged, which the kept/remaining split mirrors. -/
def cleanupGo (kept rem : ConvMap) : ConvMap :=
  match rem with
  | [] => kept
  | (k, v) :: rest =>
    if v.length = 0 then cleanupGo kept rest
    else if 100 < kept.length + (rest.length + 1) then cleanupGo kept rest
    else cleanupGo (kept ++ [(k, v)]) rest

/-- cleanupConversations (slack-claude.js lines 179-191), run after every
append. -/
def cleanupConversations (m : ConvMap) : ConvMap :=
  cleanupGo [] m

/- ## The slack-notify formatter (buildMessage and the per-kind builders).
Slack mrkdwn decoration and emoji are transcribed as plain ASCII labels;
field structure, ordering, truncation limits, JavaScript || defaults and
button payloads follow the source. -/

/-- An entry of the digest's topIssues list. -/
structure TopIssue where
  url : String
  title : String
deriving DecidableEq, Repr

/-- The data bag of a notification request; absent JSON fields are none. -/
structure NotifyData where
  title : Option String := none
  severity : Option String := none
  source : Option String := none
  status : Option String := none
  issueUrl : Option String := none
  issueNumber : Option Nat := none
  description : Option String := none
  priority : Option String := none
  votes : Option Nat := none
  useCase : Option String := none
  environment : Option String := none
  branch : Option String := none
  commit : Option String := none
  author : Option String := none
  changes : Option String := none
  url : Option String := none
  newBugs : Option Nat := none
  bugsFixed : Option Nat := none
  featureRequests : Option Nat := none
  deployments : Option Nat := none
  openIssues : Option Nat := none
  prsMerged : Option Nat := none
  avgFixTime : Option String := none
  satisfaction : Option String := none
  topIssues : Option (List TopIssue) := none
  impact : Option String := none
  startedAt : Option String := none
  id : Option String := none
  prUrl : Option String := none
  prNumber : Option Nat := none
  filesChanged : Option Nat := none
deriving DecidableEq, Repr

/-- The data bag with every field absent. -/
def emptyNotifyData : NotifyData := {}

/-- A button element of an actions block. -/
structure SlackButton where
  label : String
  actionId : Option String
  value : Option String
  url : Option String
deriving DecidableEq, Repr

/-- A Slack layout block, reduced to the texts it carries.  nullBlk is the
literal null that buildPRMessage leaves in its block array when the
description is absent (that builder has no .filter(Boolean) on the outer
array). -/
inductive SlackBlock where
  | headerBlk (text : String)
  | fieldsBlk (fields : List String)
  | sectionBlk (text : String)
  | actionsBlk (buttons : List SlackButton)
  | nullBlk
deriving DecidableEq, Repr

/-- A formatted chat message: either a block list or, for the fallback of
an unrecognized kind, a plain text payload. -/
inductive SlackMessage where
  | blocks (bs : List SlackBlock)
  | plain (text : String)
deriving DecidableEq, Repr

/-- JavaScript x || d on an optional string: undefined and the empty
string both fall back to the default. -/
def jsOr (o : Option String) (d : String) : String :=
  match o with
  | none => d
  | some s => if s.length = 0 then d else s

/-- JavaScript x || d on an optional number (0 falls back, which for the
defaults of the source, all 0, is indistinguishable). -/
def jsOrNat (o : Option Nat) (d : Nat) : Nat :=
  match o with
  | none => d
  | some n => if n = 0 then d else n

/-- Interpolating a possibly absent string into a template renders
undefined, as JavaScript template literals do. -/
def undefStr (o : Option String) : String := o.getD "undefined"

/-- Interpolating a possibly absent number. -/
def undefNat (o : Option Nat) : String :=
  match o with
  | some n => toString n
  | none => "undefined"

/-- String fed to truncate: an absent field is falsy there and yields the
empty string, so getD "" is exact. -/
def optStr (o : Option String) : String := o.getD ""

/-- JSON.stringify of an object with one numeric field, as the button
value payloads build it; an undefined field is dropped by
JSON.stringify. -/
def jsonNumField (name : String) (n : Option Nat) : String :=
  match n with
  | some v => "\x7b\"" ++ name ++ "\":" ++ toString v ++ "\x7d"
  | none => "\x7b\x7d"

/-- JSON.stringify of an object with one string field. -/
def jsonStrField (name : String) (s : Option String) : String :=
  match s with
  | some v => "\x7b\"" ++ name ++ "\":\"" ++ v ++ "\"\x7d"
  | none => "\x7b\x7d"

/-- Model of JSON.stringify(data) in the fallback branch.  Only its
presence in the fallback text matters to the claims; the embedding renders
the two leading fields rather than the full recursive serialization. -/
def stringifyNotifyData (d : NotifyData) : String :=
  "\x7b" ++ String.intercalate ","
    ((match d.title with
      | some t => ["\"title\":\"" ++ t ++ "\""]
      | none => []) ++
     (match d.severity with
      | some s => ["\"severity\":\"" ++ s ++ "\""]
      | none => [])) ++ "\x7d"

/-- buildBugMessage. -/
def buildBugMessage (d : NotifyData) : SlackMessage :=
  SlackMessage.blocks (
    [SlackBlock.headerBlk ("Bug: " ++ truncate (optStr d.title) 60),
     SlackBlock.fieldsBlk
       ["*Severity:*\n" ++ jsOr d.severity "unknown",
        "*Source:*\n" ++ jsOr d.source "user report",
        "*Status:*\n" ++ jsOr d.status "new",
        if falsyStr d.issueUrl then "*Issue:*\nPending"
        else "*Issue:*\n<" ++ optStr d.issueUrl ++ "|#" ++ undefNat d.issueNumber ++ ">"]] ++
    (if falsyStr d.description then []
     else [SlackBlock.sectionBlk (truncate (optStr d.description) 300)]) ++
    [SlackBlock.actionsBlk (
      (if falsyStr d.issueUrl then []
       else [⟨"View Issue", none, none, d.issueUrl⟩]) ++
      [⟨"AI Analyze", some "trigger_ai_analysis",
        some (jsonNumField "issueNumber" d.issueNumber), none⟩])])

/-- buildFeatureMessage. -/
def buildFeatureMessage (d : NotifyData) : SlackMessage :=
  SlackMessage.blocks (
    [SlackBlock.headerBlk ("Feature: " ++ truncate (optStr d.title) 60),
     SlackBlock.fieldsBlk
       ["*Priority:*\n" ++ jsOr d.priority "normal",
        "*Votes:*\n" ++ toString (jsOrNat d.votes 0),
        if falsyStr d.issueUrl then "*Issue:*\nPending"
        else "*Issue:*\n<" ++ optStr d.issueUrl ++ "|#" ++ undefNat d.issueNumber ++ ">"]] ++
    (if falsyStr d.useCase then []
     else [SlackBlock.sectionBlk ("*Use Case:*\n" ++ truncate (optStr d.useCase) 300)]) ++
    [SlackBlock.actionsBlk (
      (if falsyStr d.issueUrl then []
       else [⟨"View Issue", none, none, d.issueUrl⟩]) ++
      [⟨"Add to Roadmap", some "add_to_roadmap",
        some (jsonNumField "issueNumber" d.issueNumber), none⟩])])

/-- The property names every JavaScript object literal inherits from
Object.prototype.  A bracket lookup such as builders[type] or
statusEmoji[data.status] consults the prototype chain, so these names
yield a truthy inherited value — a method, or for the proto accessor the
prototype object itself — instead of undefined, bypassing every
`!x` / `|| default` guard in the source. -/
def objectProtoKeys : List String :=
  ["constructor", "hasOwnProperty", "isPrototypeOf", "propertyIsEnumerable",
   "toLocaleString", "toString", "valueOf", "__defineGetter__",
   "__defineSetter__", "__lookupGetter__", "__lookupSetter__", "__proto__"]

/-- The status marker of a deployment header: statusEmoji[data.status]
with the package emoji as `||` default.  The four own keys map to their
emoji (transcribed as ASCII words); a status naming an inherited
Object.prototype member is truthy, bypasses the default, and the template
literal interpolates the stringified inherited member, which the embedding
abstracts as "inherited:" plus the name; anything else is undefined and
falls back to the default. -/
def deployStatusMark (st : Option String) : String :=
  match st with
  | some "success" => "ok"
  | some "failed" => "failed"
  | some "pending" => "pending"
  | some "rollback" => "rollback"
  | some s => if s ∈ objectProtoKeys then "inherited:" ++ s else "package"
  | none => "package"

/-- buildDeploymentMessage. -/
def buildDeploymentMessage (d : NotifyData) : SlackMessage :=
  SlackMessage.blocks (
    [SlackBlock.headerBlk
       (deployStatusMark d.status ++ " Deployment: " ++ undefStr d.status),
     SlackBlock.fieldsBlk
       ["*Environment:*\n" ++ jsOr d.environment "production",
        "*Branch:*\n" ++ jsOr d.branch "main",
        "*Commit:*\n" ++ truncate (optStr d.commit) 8,
        "*Author:*\n" ++ jsOr d.author "unknown"]] ++
    (if falsyStr d.changes then []
     else [SlackBlock.sectionBlk ("*Changes:*\n" ++ truncate (optStr d.changes) 300)]) ++
    (if falsyStr d.url then []
     else [SlackBlock.actionsBlk [⟨"View Deployment", none, none, d.url⟩]]))

/-- buildDigestMessage; nowStr stands for new
Date().toLocaleDateString(). -/
def buildDigestMessage (nowStr : String) (d : NotifyData) : SlackMessage :=
  SlackMessage.blocks (
    [SlackBlock.headerBlk ("Daily Digest - " ++ nowStr),
     SlackBlock.fieldsBlk
       ["*New Bugs:*\n" ++ toString (jsOrNat d.newBugs 0),
        "*Bugs Fixed:*\n" ++ toString (jsOrNat d.bugsFixed 0),
        "*Feature Requests:*\n" ++ toString (jsOrNat d.featureRequests 0),
        "*Deployments:*\n" ++ toString (jsOrNat d.deployments 0)],
     SlackBlock.fieldsBlk
       ["*Open Issues:*\n" ++ toString (jsOrNat d.openIssues 0),
        "*PRs Merged:*\n" ++ toString (jsOrNat d.prsMerged 0),
        "*Avg Fix Time:*\n" ++ jsOr d.avgFixTime "N/A",
        "*User Satisfaction:*\n" ++ jsOr d.satisfaction "N/A"]] ++
    (match d.topIssues with
     | none => []
     | some issues =>
       [SlackBlock.sectionBlk ("*Top Issues:*\n" ++
          String.intercalate "\n"
            ((issues.enum.map
               (fun p => toString (p.1 + 1) ++ ". <" ++ p.2.url ++ "|" ++ p.2.title ++ ">"))))]))

/-- buildIncidentMessage; nowStr stands for new Date().toISOString(). -/
def buildIncidentMessage (nowStr : String) (d : NotifyData) : SlackMessage :=
  SlackMessage.blocks (
    [SlackBlock.headerBlk ("INCIDENT: " ++ truncate (optStr d.title) 50),
     SlackBlock.sectionBlk
       ("*Severity:* " ++ jsOr d.severity "HIGH" ++
        "\n*Impact:* " ++ jsOr d.impact "Unknown" ++
        "\n*Started:* " ++ jsOr d.startedAt nowStr)] ++
    (if falsyStr d.description then []
     else [SlackBlock.sectionBlk (optStr d.description)]) ++
    [SlackBlock.actionsBlk (
      [⟨"Acknowledge", some "acknowledge_incident",
        some (jsonStrField "incidentId" d.id), none⟩] ++
      (if falsyStr d.issueUrl then []
       else [⟨"View Issue", none, none, d.issueUrl⟩]))])

/-- buildPRMessage. -/
def buildPRMessage (d : NotifyData) : SlackMessage :=
  SlackMessage.blocks
    [SlackBlock.headerBlk ("PR: " ++ truncate (optStr d.title) 60),
     SlackBlock.fieldsBlk
       (["*Author:*\n" ++ jsOr d.author "AI",
         "*Status:*\n" ++ jsOr d.status "open",
         "*Files Changed:*\n" ++ (match d.filesChanged with
                                  | some n => toString (jsOrNat (some n) 0)
                                  | none => "N/A")] ++
        (match d.issueNumber with
         | some n => ["*Fixes:*\n#" ++ toString n]
         | none => [])),
     (if falsyStr d.description then SlackBlock.nullBlk
      else SlackBlock.sectionBlk (truncate (optStr d.description) 300)),
     SlackBlock.actionsBlk
       [⟨"Review PR", none, none, d.prUrl⟩,
        ⟨"Approve & Merge", some "approve_merge_pr",
         some (jsonNumField "prNumber" d.prNumber), none⟩,
        ⟨"Reject", some "reject_pr",
         some (jsonNumField "prNumber" d.prNumber), none⟩]]

/-- The closed kind enumeration of the builders table. -/
def knownNotifyKinds : List String :=
  ["bug", "feature", "deployment", "digest", "incident", "pr"]

/-- What `return builder(data)` can hand back: a proper message object, a
bare string (an inherited toString called on an undefined receiver), or
the data bag itself (the inherited constructor is Object, and Object(data)
returns data). -/
inductive BuildOutcome where
  | message (m : SlackMessage)
  | rawString (s : String)
  | rawData
deriving DecidableEq, Repr

/-- buildMessage (slack-notify handler): `const builder = builders[type]`
followed by `if (!builder) return fallback; return builder(data)`.  The
bracket lookup consults the prototype chain of the object literal, so the
fallback is reached only for a kind that is neither one of the six own
keys nor an Object.prototype property name.  For the inherited names the
value is truthy and gets called: the result is governed by the strict-mode
ES-module semantics, where the receiver `this` inside the called method is
undefined — "toString" returns the string "[object Undefined]",
"constructor" (the Object constructor) returns the data object, the proto
accessor yields the non-callable prototype object and the call throws
TypeError, and every other inherited method throws TypeError converting
its undefined receiver.  Except.error models those thrown TypeErrors.
nowStr abstracts the two Date() reads of the digest and incident
builders. -/
def buildMessage (nowStr : String) (type : String) (d : NotifyData) :
    Except Unit BuildOutcome :=
  if type = "bug" then Except.ok (BuildOutcome.message (buildBugMessage d))
  else if type = "feature" then Except.ok (BuildOutcome.message (buildFeatureMessage d))
  else if type = "deployment" then Except.ok (BuildOutcome.message (buildDeploymentMessage d))
  else if type = "digest" then Except.ok (BuildOutcome.message (buildDigestMessage nowStr d))
  else if type = "incident" then Except.ok (BuildOutcome.message (buildIncidentMessage nowStr d))
  else if type = "pr" then Except.ok (BuildOutcome.message (buildPRMessage d))
  else if type = "toString" then Except.ok (BuildOutcome.rawString "[object Undefined]")
  else if type = "constructor" then Except.ok BuildOutcome.rawData
  else if type ∈ objectProtoKeys then Except.error ()
  else Except.ok (BuildOutcome.message
    (SlackMessage.plain ("[" ++ type ++ "] " ++ stringifyNotifyData d)))

/- ## The slash-command handler (slack-commands.js) and the button-action
handler (slack-actions.js).  Block payloads of the result messages are
abstracted to their primary texts; what the claims need from this part of
the embedding is the control flow: which HTTP status the request gets, and
which outbound calls (recorded as their URLs, in order) are made. -/

/-- The tracker-issue shape the handlers read back. -/
structure GhIssue where
  number : Nat
  html_url : String
deriving DecidableEq, Repr

/-- The pull-request shape /approve-pr reads back. -/
structure GhPR where
  number : Nat
  title : String
  userLogin : String
  headRef : String
  baseRef : String
  changed_files : Nat
  html_url : String
deriving DecidableEq, Repr

/-- Responses of the remote services, supplied as an oracle the theorems
quantify over; Except.error carries the non-2xx failure the code turns
into a thrown Error. -/
structure Remote where
  createIssue : String → String → List String → Except String GhIssue
  claudeAnswer : String → Except String String
  getIssue : String → Option GhIssue
  listOpenBugs : List GhIssue
  getPR : String → Option GhPR

/-- Handler environment configuration. -/
structure Env where
  signingSecret : Option String
  anthropicKey : Option String
  githubOwner : String
  githubRepo : String

/-- Base URL of the tracker repository API. -/
def ghApiBase (env : Env) : String :=
  "https://api.github.com/repos/" ++ env.githubOwner ++ "/" ++ env.githubRepo

/-- The LLM endpoint. -/
def anthropicUrl : String := "https://api.anthropic.com/v1/messages"

/-- A delayed slash-command response, reduced to response_type and its
primary text. -/
structure CmdMsg where
  response_type : String
  text : String
deriving DecidableEq, Repr

/-- handleBugCommand: usage hint on empty text, otherwise one create-issue
call; a non-2xx response throws. -/
def handleBugCommand (rm : Remote) (env : Env) (text userName : String) :
    List String × Except String CmdMsg :=
  if text.length = 0 then
    ([], Except.ok ⟨"ephemeral", "Usage: /bug <description of the bug>"⟩)
  else
    match rm.createIssue ("[Slack] " ++ text)
        ("Bug Report (from Slack) reported by @" ++ userName) ["bug", "slack-reported"] with
    | Except.error e =>
      ([ghApiBase env ++ "/issues"], Except.error ("GitHub API error: " ++ e))
    | Except.ok issue =>
      ([ghApiBase env ++ "/issues"],
       Except.ok ⟨"in_channel",
         "Bug reported by @" ++ userName ++ ": " ++ text ++
         " GitHub Issue: <" ++ issue.html_url ++ "|#" ++ toString issue.number ++ ">"⟩)

/-- handleFeatureCommand. -/
def handleFeatureCommand (rm : Remote) (env : Env) (text userName : String) :
    List String × Except String CmdMsg :=
  if text.length = 0 then
    ([], Except.ok ⟨"ephemeral", "Usage: /feature <description of the feature>"⟩)
  else
    match rm.createIssue ("[Slack] " ++ text)
        ("Feature Request (from Slack) requested by @" ++ userName)
        ["enhancement", "slack-requested"] with
    | Except.error e =>
      ([ghApiBase env ++ "/issues"], Except.error ("GitHub API error: " ++ e))
    | Except.ok issue =>
      ([ghApiBase env ++ "/issues"],
       Except.ok ⟨"in_channel",
         "Feature requested by @" ++ userName ++ ": " ++ text ++
         " GitHub Issue: <" ++ issue.html_url ++ "|#" ++ toString issue.number ++ ">"⟩)

/-- handleAskClaudeCommand. -/
def handleAskClaudeCommand (rm : Remote) (env : Env) (text userName : String) :
    List String × Except String CmdMsg :=
  if text.length = 0 then
    ([], Except.ok ⟨"ephemeral", "Usage: /ask-claude <your question>"⟩)
  else if falsyStr env.anthropicKey then
    ([], Except.ok ⟨"ephemeral",
      "Claude AI is not configured. Set the ANTHROPIC_API_KEY environment variable."⟩)
  else
    match rm.claudeAnswer text with
    | Except.error status =>
      ([anthropicUrl], Except.error ("Claude API error: " ++ status))
    | Except.ok answer =>
      ([anthropicUrl],
       Except.ok ⟨"in_channel",
         "@" ++ userName ++ " asked: " ++ text ++ " Claude: " ++ answer⟩)

/-- handleBugStatusCommand: with a (trimmed, nonempty) argument fetch that
issue, otherwise list the five most recent open bugs. -/
def handleBugStatusCommand (rm : Remote) (env : Env) (text : String) :
    List String × Except String CmdMsg :=
  let issueNumber := text.trim
  if issueNumber.length ≠ 0 then
    match rm.getIssue issueNumber with
    | none =>
      ([ghApiBase env ++ "/issues/" ++ issueNumber],
       Except.ok ⟨"ephemeral", "Issue #" ++ issueNumber ++ " not found."⟩)
    | some issue =>
      ([ghApiBase env ++ "/issues/" ++ issueNumber],
       Except.ok ⟨"ephemeral",
         "#" ++ toString issue.number ++ " <" ++ issue.html_url ++ "|View on GitHub>"⟩)
  else
    ([ghApiBase env ++ "/issues?labels=bug&state=open&per_page=5&sort=created&direction=desc"],
     if rm.listOpenBugs.isEmpty then
       Except.ok ⟨"ephemeral", "No open bugs! Great job!"⟩
     else
       Except.ok ⟨"ephemeral",
         "Open Bugs: " ++ String.intercalate "\n"
           (rm.listOpenBugs.map (fun i => "<" ++ i.html_url ++ "|#" ++ toString i.number ++ ">"))⟩)

/-- handleDeployCommand: no outbound call; the confirmation message
carries a confirm_deploy button whose value is the JSON of branch and
requesting user. -/
def handleDeployCommand (text userName : String) :
    List String × Except String CmdMsg :=
  let branch := if text.length = 0 then "main" else text.trim
  ([], Except.ok ⟨"in_channel",
    "Deployment requested by @" ++ userName ++ " Branch: " ++ branch ++
    " Environment: production confirm_deploy:" ++
    "\x7b\"branch\":\"" ++ branch ++ "\",\"requestedBy\":\"" ++ userName ++ "\"\x7d"⟩)

/-- handleApprovePRCommand. -/
def handleApprovePRCommand (rm : Remote) (env : Env) (text userName : String) :
    List String × Except String CmdMsg :=
  if text.length = 0 then
    ([], Except.ok ⟨"ephemeral", "Usage: /approve-pr <PR number>"⟩)
  else
    let prNumber := text.trim
    match rm.getPR prNumber with
    | none =>
      ([ghApiBase env ++ "/pulls/" ++ prNumber],
       Except.ok ⟨"ephemeral", "PR #" ++ prNumber ++ " not found."⟩)
    | some pr =>
      ([ghApiBase env ++ "/pulls/" ++ prNumber],
       Except.ok ⟨"in_channel",
         "PR #" ++ toString pr.number ++ ": " ++ pr.title ++ " by " ++ pr.userLogin ++
         " " ++ pr.headRef ++ " -> " ++ pr.baseRef ++
         " files " ++ toString pr.changed_files ++
         " approve_merge_pr:\x7b\"prNumber\":" ++ toString pr.number ++
         ",\"approver\":\"" ++ userName ++ "\"\x7d"⟩)

/-- The switch of the slash-command handler; unknown commands produce the
literal unknown-command reply and no outbound call. -/
def processCommand (rm : Remote) (env : Env) (command text userName : String) :
    List String × Except String CmdMsg :=
  if command = "/bug" then handleBugCommand rm env text userName
  else if command = "/feature" then handleFeatureCommand rm env text userName
  else if command = "/ask-claude" then handleAskClaudeCommand rm env text userName
  else if command = "/bug-status" then handleBugStatusCommand rm env text
  else if command = "/deploy" then handleDeployCommand text userName
  else if command = "/approve-pr" then handleApprovePRCommand rm env text userName
  else ([], Except.ok ⟨"ephemeral",
    "Unknown command: " ++ command ++
    ". Available commands: /bug, /feature, /ask-claude, /bug-status, /deploy, /approve-pr"⟩)

/-- One inbound slash-command request.  rawBody is the string the verifier
hashes (JSON.stringify of the parsed form body). -/
structure CmdRequest where
  method : String
  tsHeader : Option String
  sigHeader : Option String
  command : String
  text : String
  user_name : String
  response_url : Option String
  rawBody : String

/-- What a handler invocation did: the HTTP status of the synchronous
response and the outbound calls (URLs, in order) of the asynchronous
phase. -/
structure HandlerOutcome where
  status : Nat
  outCalls : List String
deriving DecidableEq, Repr

/-- The asynchronous phase of the slash-command handler: run the command,
then post the result — or, from the catch branch, the error text — to
response_url when one is present. -/
def slackCommandsProcess (rm : Remote) (env : Env) (req : CmdRequest) :
    List String :=
  let r := processCommand rm env req.command req.text req.user_name
  r.1 ++ (if falsyStr req.response_url then [] else [req.response_url.getD ""])

/-- The slack-commands handler (lines 22-90): 405 on non-POST; when a
signing secret is configured, verify the signature and stop with 401 on
failure (a thrown length-mismatch error escapes as Except.error);
otherwise acknowledge with 200 and process asynchronously. -/
def slackCommandsHandler (rm : Remote) (env : Env)
    (hmacHex : String → String → String) (now : Int) (req : CmdRequest) :
    Except Unit HandlerOutcome :=
  if req.method ≠ "POST" then Except.ok ⟨405, []⟩
  else if ¬ falsyStr env.signingSecret then
    match verifySlackSignature hmacHex now req.tsHeader req.sigHeader
        env.signingSecret req.rawBody with
    | Except.error _ => Except.error ()
    | Except.ok false => Except.ok ⟨401, []⟩
    | Except.ok true => Except.ok ⟨200, slackCommandsProcess rm env req⟩
  else Except.ok ⟨200, slackCommandsProcess rm env req⟩

/-- The parsed interactive payload of slack-actions.js: the first element
of actions, the invoking user, and the callback URL.  valueParses records
whether JSON.parse succeeds on the value string, for the branches that
parse it. -/
structure ActionPayload where
  actionId : Option String
  value : String
  valueParses : Bool
  userName : String
  response_url : Option String

/-- One inbound interactive-action request; parsed = none models a body
on which JSON.parse throws, which the handler answers with 400 before
any verification. -/
structure ActRequest where
  method : String
  tsHeader : Option String
  sigHeader : Option String
  parsed : Option ActionPayload
  rawBody : String

/-- Outcomes of the two fallible tracker calls of the action handlers. -/
structure ActRemote where
  mergeOk : Bool
  dispatchOk : Bool

/-- The switch of the action handler, recording the outbound calls (value
decoding is abridged to whether JSON.parse succeeds; a parse failure
throws, is caught, and only the error text is posted to the callback). -/
def processAction (_arm : ActRemote) (env : Env) (p : ActionPayload) :
    List String :=
  let post := if falsyStr p.response_url then [] else [p.response_url.getD ""]
  match p.actionId with
  | none => []
  | some aid =>
    if aid = "trigger_ai_analysis" then
      [ghApiBase env ++ "/issues/" ++ p.value ++ "/labels"] ++ post
    else if aid = "approve_merge_pr" then
      if ¬ p.valueParses then post
      else [ghApiBase env ++ "/pulls/reviews", ghApiBase env ++ "/pulls/merge"] ++ post
    else if aid = "reject_pr" then
      if ¬ p.valueParses then post
      else [ghApiBase env ++ "/pulls/close"] ++ post
    else if aid = "confirm_deploy" then
      if ¬ p.valueParses then post
      else [ghApiBase env ++ "/actions/workflows/deploy.yml/dispatches"] ++ post
    else if aid = "cancel_deploy" then post
    else if aid = "acknowledge_incident" then post
    else if aid = "add_to_roadmap" then
      [ghApiBase env ++ "/issues/" ++ p.value ++ "/labels"] ++ post
    else post

/-- The slack-actions handler (lines 22-98): 405 on non-POST, 400 on an
unparsable payload, then the same verification guard as the command
handler, then acknowledge and process. -/
def slackActionsHandler (arm : ActRemote) (env : Env)
    (hmacHex : String → String → String) (now : Int) (req : ActRequest) :
    Except Unit HandlerOutcome :=
  if req.method ≠ "POST" then Except.ok ⟨405, []⟩
  else
    match req.parsed with
    | none => Except.ok ⟨400, []⟩
    | some p =>
      if ¬ falsyStr env.signingSecret then
        match verifySlackSignature hmacHex now req.tsHeader req.sigHeader
            env.signingSecret req.rawBody with
        | Except.error _ => Except.error ()
        | Except.ok false => Except.ok ⟨401, []⟩
        | Except.ok true => Except.ok ⟨200, processAction arm env p⟩
      else Except.ok ⟨200, processAction arm env p⟩

/-- A fixed remote oracle for the concrete counterexamples. -/
def remoteStub : Remote :=
  ⟨fun _ _ _ => Except.ok ⟨1, "https://github.example/issue/1"⟩,
   fun _ => Except.ok "answer",
   fun _ => none, [], fun _ => none⟩

/- ## C9: truncate -/

/-- C9: for every string s and limit n, truncate leaves s unchanged when
its length is at most n, and otherwise returns the first n characters of s
followed by an ellipsis, a string of length n + 3. -/
theorem c9_truncate_spec (s : String) (n : Nat) :
    (s.length ≤ n → truncate s n = s) ∧
    (n < s.length →
      truncate s n = String.mk (s.data.take n) ++ "..." ∧
      (truncate s n).length = n + 3) := by
  obtain ⟨l⟩ := s
  have hlen : (String.mk l).length = l.length := rfl
  constructor
  · intro h
    rw [hlen] at h
    unfold truncate
    rw [hlen]
    by_cases h0 : l.length = 0
    · have hnil : l = [] := List.length_eq_zero.mp h0
      simp [h0, hnil]
    · have h1 : ¬ n < l.length := by omega
      simp [h0, h1]
  · intro h
    rw [hlen] at h
    have h0 : ¬ l.length = 0 := by omega
    have heq : truncate (String.mk l) n = String.mk (l.take n) ++ "..." := by
      unfold truncate
      rw [hlen]
      simp [h0, h]
    refine ⟨heq, ?_⟩
    rw [heq]
    rw [String.length_append]
    have h2 : (String.mk (l.take n)).length = (l.take n).length := rfl
    have h3 : ("..." : String).length = 3 := rfl
    rw [h2, h3, List.length_take]
    omega

set_option maxRecDepth 4000 in
/-- C9 witness: a 300-character title truncated at limit 60 is the first
60 characters plus the ellipsis, 63 characters long. -/
theorem c9_truncate_witness :
    truncate (String.mk (List.replicate 300 'a')) 60
      = String.mk (List.replicate 60 'a') ++ "..." ∧
    (truncate (String.mk (List.replicate 300 'a')) 60).length = 63 := by
  have hlt : 60 < (String.mk (List.replicate 300 'a')).length := by
    show 60 < (List.replicate 300 'a').length
    simp
  have h := (c9_truncate_spec (String.mk (List.replicate 300 'a')) 60).2 hlt
  refine ⟨?_, h.2⟩
  rw [h.1]
  show String.mk ((List.replicate 300 'a').take 60) ++ "..." = _
  rw [List.take_replicate]
  norm_num

/- ## C7: the cleanup pass caps the number of keys at 100 -/

theorem cleanupGo_length (rem : ConvMap) : ∀ kept : ConvMap,
    kept.length ≤ 100 → (cleanupGo kept rem).length ≤ 100 := by
  induction rem with
  | nil => intro kept h; simpa [cleanupGo] using h
  | cons p rest ih =>
    intro kept h
    obtain ⟨k, v⟩ := p
    unfold cleanupGo
    by_cases h0 : v.length = 0
    · simpa [h0] using ih kept h
    · by_cases h1 : 100 < kept.length + (rest.length + 1)
      · simpa [h0, h1] using ih kept h
      · have h2 : (kept ++ [(k, v)]).length ≤ 100 := by
          simp
          omega
        simpa [h0, h1] using ih (kept ++ [(k, v)]) h2

theorem cleanupGo_sublist (rem : ConvMap) : ∀ kept : ConvMap,
    (cleanupGo kept rem).Sublist (kept ++ rem) := by
  induction rem with
  | nil => intro kept; simp [cleanupGo]
  | cons p rest ih =>
    intro kept
    obtain ⟨k, v⟩ := p
    unfold cleanupGo
    by_cases h0 : v.length = 0
    · simp only [h0, if_true]
      exact (ih kept).trans
        (List.Sublist.append_left (List.sublist_cons_self _ _) kept)
    · by_cases h1 : 100 < kept.length + (rest.length + 1)
      · simp only [h0, if_false, h1, if_true]
        exact (ih kept).trans
          (List.Sublist.append_left (List.sublist_cons_self _ _) kept)
      · simp only [h0, if_false, h1]
        have := ih (kept ++ [(k, v)])
        simpa [List.append_assoc] using this

/-- C7: after the maintenance pass that follows every append, the
conversation map holds at most 100 keys, and everything it still holds is
a subsequence of the keyed entries it was given — eviction removes whole
entries and never reorders or edits the survivors. -/
theorem c7_cleanup_caps_keys (m : ConvMap) :
    (cleanupConversations m).length ≤ 100 ∧
    (cleanupConversations m).Sublist m := by
  constructor
  · exact cleanupGo_length m [] (by simp)
  · simpa using cleanupGo_sublist m []

/- ## C4: the per-thread history trim -/

theorem convGet_mapSet (k : String) (v : List ChatMsg) :
    ∀ m : ConvMap, m.any (fun p => p.1 == k) = true →
    convGet (m.map (fun p => if p.1 == k then (k, v) else p)) k = v := by
  intro m
  induction m with
  | nil => intro h; simp at h
  | cons p rest ih =>
    intro h
    obtain ⟨k', v'⟩ := p
    by_cases hp : (k' == k) = true
    · simp only [List.map_cons, hp, if_true]
      simp [convGet]
    · have hpf : (k' == k) = false := by simpa using hp
      have hrest : rest.any (fun p => p.1 == k) = true := by
        simp only [List.any_cons, hpf, Bool.false_or] at h
        exact h
      simp only [List.map_cons, hpf, Bool.false_eq_true, if_false]
      simp only [convGet, hpf, Bool.false_eq_true, if_false]
      exact ih hrest

theorem convGet_appendNew (k : String) (v : List ChatMsg) :
    ∀ m : ConvMap, m.any (fun p => p.1 == k) = false →
    convGet (m ++ [(k, v)]) k = v := by
  intro m
  induction m with
  | nil => intro _; simp [convGet]
  | cons p rest ih =>
    intro h
    obtain ⟨k', v'⟩ := p
    have hpf : (k' == k) = false := by
      simp only [List.any_cons] at h
      exact (Bool.or_eq_false_iff.mp h).1
    have hrest : rest.any (fun p => p.1 == k) = false := by
      simp only [List.any_cons] at h
      exact (Bool.or_eq_false_iff.mp h).2
    simp only [List.cons_append, convGet, hpf, Bool.false_eq_true, if_false]
    exact ih hrest

theorem convGet_convSet (m : ConvMap) (k : String) (v : List ChatMsg) :
    convGet (convSet m k v) k = v := by
  unfold convSet
  by_cases h : m.any (fun p => p.1 == k) = true
  · simp only [h, if_true]
    exact convGet_mapSet k v m h
  · have hf : m.any (fun p => p.1 == k) = false := Bool.eq_false_iff.mpr h
    simp only [hf, Bool.false_eq_true, if_false]
    exact convGet_appendNew k v m hf

theorem trimHistory_length_le (h : List ChatMsg) :
    (trimHistory h).length ≤ 20 := by
  unfold trimHistory
  by_cases hl : 20 < h.length
  · simp [hl]
    omega
  · simp [hl]
    omega

theorem conversationTurn_length_le (h : List ChatMsg) (u a : String) :
    (conversationTurn h u a).length ≤ 21 := by
  unfold conversationTurn appendAssistantMsg appendUserMsg
  have := trimHistory_length_le (h ++ [⟨"user", u⟩])
  simp
  omega

set_option maxHeartbeats 1600000 in
/-- C4 amended: (i) appending 25 entries to a fresh thread in the
handler's alternating user/assistant pattern (twelve full turns and the
user push of the thirteenth) leaves exactly the last 20 entries, in the
original chronological order; (ii) one full turn never leaves more than 21
stored entries, because the trim runs after the user push but not after
the assistant push, so the cap the stored sequence obeys is 21, not 20;
(iii) a user push always trims the history to at most 20 entries;
(iv) reading the key the handler just wrote returns exactly the history
that was stored. -/
theorem c4_cache_trim_amended :
    (∀ t1 t2 t3 t4 t5 t6 t7 t8 t9 t10 t11 t12 t13 t14 t15 t16 t17 t18 t19
       t20 t21 t22 t23 t24 t25 : String,
      appendUserMsg (conversationTurn (conversationTurn (conversationTurn (conversationTurn (conversationTurn (conversationTurn (conversationTurn (conversationTurn (conversationTurn (conversationTurn (conversationTurn (conversationTurn [] t1 t2) t3 t4) t5 t6) t7 t8) t9 t10) t11 t12) t13 t14) t15 t16) t17 t18) t19 t20) t21 t22) t23 t24) t25
        = [⟨"assistant", t6⟩,
       ⟨"user", t7⟩,
       ⟨"assistant", t8⟩,
       ⟨"user", t9⟩,
       ⟨"assistant", t10⟩,
       ⟨"user", t11⟩,
       ⟨"assistant", t12⟩,
       ⟨"user", t13⟩,
       ⟨"assistant", t14⟩,
       ⟨"user", t15⟩,
       ⟨"assistant", t16⟩,
       ⟨"user", t17⟩,
       ⟨"assistant", t18⟩,
       ⟨"user", t19⟩,
       ⟨"assistant", t20⟩,
       ⟨"user", t21⟩,
       ⟨"assistant", t22⟩,
       ⟨"user", t23⟩,
       ⟨"assistant", t24⟩,
       ⟨"user", t25⟩]) ∧
    (∀ (h : List ChatMsg) (u a : String),
      (conversationTurn h u a).length ≤ 21) ∧
    (∀ h : List ChatMsg, (trimHistory h).length ≤ 20) ∧
    (∀ (m : ConvMap) (k u a : String),
      convGet (handleTurn m k u a) k = conversationTurn (convGet m k) u a) := by
  refine ⟨?_, conversationTurn_length_le, trimHistory_length_le, ?_⟩
  · intro t1 t2 t3 t4 t5 t6 t7 t8 t9 t10 t11 t12 t13 t14 t15 t16 t17 t18
      t19 t20 t21 t22 t23 t24 t25
    simp [conversationTurn, appendUserMsg, appendAssistantMsg, trimHistory]
  · intro m k u a
    unfold handleTurn
    exact convGet_convSet m k _

/-- C4 counterexample: the stored sequence does exceed 20 entries — after
twelve full turns on one key (24 appended entries) the cache holds 21
entries under that key, which refutes the claimed cap of 20. -/
theorem c4_cache_exceeds_20_cex :
    (convGet
      ((List.range 12).foldl
        (fun m i => handleTurn m "C:T" ("u" ++ toString i) ("a" ++ toString i))
        []) "C:T").length = 21 := by
  rfl

/- ## C5: error grouping -/

theorem bumpCount_keys (acc : List (String × ErrGroup)) (k : String) :
    (bumpCount acc k).map Prod.fst = acc.map Prod.fst := by
  induction acc with
  | nil => rfl
  | cons p rest ih =>
    simp only [bumpCount, List.map_cons] at ih ⊢
    refine congrArg₂ List.cons ?_ ih
    by_cases hp : p.1 = k
    · simp [hp]
    · simp [hp]

theorem hasKey_iff (acc : List (String × ErrGroup)) (k : String) :
    hasKey acc k = true ↔ k ∈ acc.map Prod.fst := by
  simp [hasKey, List.any_eq_true, beq_iff_eq]

theorem groupErrorsGo_keys_toFinset : ∀ (errs : List ErrRec)
    (acc : List (String × ErrGroup)),
    ((groupErrorsGo acc errs).map Prod.fst).toFinset
      = (acc.map Prod.fst).toFinset ∪ (errs.map errKey).toFinset := by
  intro errs
  induction errs with
  | nil => intro acc; simp [groupErrorsGo]
  | cons e rest ih =>
    intro acc
    unfold groupErrorsGo
    by_cases h : hasKey acc (errKey e)
    · have hmem : errKey e ∈ acc.map Prod.fst := (hasKey_iff acc _).mp h
      simp only [h, if_true]
      rw [ih, bumpCount_keys]
      simp only [List.map_cons, List.toFinset_cons]
      rw [Finset.union_insert, Finset.insert_eq_self.mpr]
      exact Finset.mem_union_left _ (List.mem_toFinset.mpr hmem)
    · have hf : hasKey acc (errKey e) = false := Bool.eq_false_iff.mpr h
      simp only [hf, Bool.false_eq_true, if_false]
      rw [ih]
      simp only [List.map_append, List.map_cons, List.map_nil,
        List.toFinset_append, List.toFinset_cons, List.toFinset_nil]
      simp [Finset.union_assoc, Finset.insert_eq]

theorem groupErrorsGo_keys_nodup : ∀ (errs : List ErrRec)
    (acc : List (String × ErrGroup)),
    (acc.map Prod.fst).Nodup → ((groupErrorsGo acc errs).map Prod.fst).Nodup := by
  intro errs
  induction errs with
  | nil => intro acc h; simpa [groupErrorsGo] using h
  | cons e rest ih =>
    intro acc h
    unfold groupErrorsGo
    by_cases hk : hasKey acc (errKey e)
    · simp only [hk, if_true]
      exact ih _ (by rw [bumpCount_keys]; exact h)
    · have hkf : hasKey acc (errKey e) = false := Bool.eq_false_iff.mpr hk
      simp only [hkf, Bool.false_eq_true, if_false]
      refine ih _ ?_
      have hnot : errKey e ∉ acc.map Prod.fst := by
        intro hc
        exact hk ((hasKey_iff acc _).mpr hc)
      simp [List.nodup_append, h, hnot]

/-- C5 amended: grouping is keyed by the concatenated string
type + ":" + message rather than by the pair (type, message).  Two reports
with identical type and identical message — whatever their timestamps —
produce exactly one group whose count is 2 and whose remaining fields are
those of the first report, and in general the number of issues created is
the number of distinct string keys; distinct (type, message) pairs whose
concatenations coincide are merged into one issue (see the
counterexample). -/
theorem c5_grouping_amended :
    (∀ e1 e2 : ErrRec, e1.type = e2.type → e1.message = e2.message →
      groupErrors [e1, e2] = [⟨e1, 2⟩] ∧ issuesCreated [e1, e2] = 1) ∧
    (∀ errs : List ErrRec,
      issuesCreated errs = (errs.map errKey).toFinset.card) := by
  constructor
  · intro e1 e2 ht hm
    have hk : errKey e2 = errKey e1 := by simp [errKey, ht, hm]
    have hstep : groupErrors [e1, e2] = [⟨e1, 2⟩] := by
      simp [groupErrors, groupErrorsGo, hasKey, hk, bumpCount]
    exact ⟨hstep, by simp [issuesCreated, hstep]⟩
  · intro errs
    have hnodup : ((groupErrorsGo [] errs).map Prod.fst).Nodup :=
      groupErrorsGo_keys_nodup errs [] (by simp)
    have hcard := List.toFinset_card_of_nodup hnodup
    have hkeys := groupErrorsGo_keys_toFinset errs []
    simp only [List.map_nil, List.toFinset_nil, Finset.empty_union] at hkeys
    calc issuesCreated errs
        = ((groupErrorsGo [] errs).map Prod.fst).length := by
          simp [issuesCreated, groupErrors]
      _ = ((groupErrorsGo [] errs).map Prod.fst).toFinset.card := hcard.symm
      _ = (errs.map errKey).toFinset.card := by rw [hkeys]

/-- C5 witness: two concrete reports with the same type and message and
different timestamps collapse to a single group with count 2, and one
issue is created. -/
theorem c5_grouping_witness :
    groupErrors [⟨"TypeError", "x is undefined", "error", "2025-01-01"⟩,
                 ⟨"TypeError", "x is undefined", "error", "2025-01-02"⟩]
      = [⟨⟨"TypeError", "x is undefined", "error", "2025-01-01"⟩, 2⟩] ∧
    issuesCreated [⟨"TypeError", "x is undefined", "error", "2025-01-01"⟩,
                   ⟨"TypeError", "x is undefined", "error", "2025-01-02"⟩] = 1 :=
  c5_grouping_amended.1
    ⟨"TypeError", "x is undefined", "error", "2025-01-01"⟩
    ⟨"TypeError", "x is undefined", "error", "2025-01-02"⟩ rfl rfl

/-- C5 counterexample: grouping is not by the pair (type, message).  The
reports (type "a:b", message "c") and (type "a", message "b:c") are two
distinct pairs, yet their concatenated keys coincide, so the code creates
one issue, not the claimed one-per-distinct-pair two. -/
theorem c5_pair_collision_cex :
    ((⟨"a:b", "c", "error", "t1"⟩ : ErrRec).type,
     (⟨"a:b", "c", "error", "t1"⟩ : ErrRec).message)
      ≠ ((⟨"a", "b:c", "error", "t2"⟩ : ErrRec).type,
         (⟨"a", "b:c", "error", "t2"⟩ : ErrRec).message) ∧
    issuesCreated [⟨"a:b", "c", "error", "t1"⟩, ⟨"a", "b:c", "error", "t2"⟩]
      = 1 := by
  constructor
  · decide
  · rfl

/- ## C1 and C3: the signature verifier -/

theorem get?_set_self' (l : List Char) (i : Nat) (c : Char)
    (h : i < l.length) : (l.set i c)[i]? = some c :=
  List.getElem?_set_self h

/-- C1: with an hmac of the standard 64-hex-character output, (i) a
request carrying the signature computed from the correct secret over
"v0:" + timestamp + ":" + rawBody, with a timestamp within 300 seconds of
now, verifies true; (ii) the same request with any one character of that
signature changed (same length) verifies false; (iii) the correctly
signed request with a timestamp 301 seconds old verifies false. -/
theorem c1_signature_verification (hmacHex : String → String → String)
    (hlen : ∀ k m, (hmacHex k m).length = 64)
    (now : Int) (ts secret body : String) (t : Int)
    (hts : ts.length ≠ 0) (hsec : secret.length ≠ 0)
    (hparse : parseIntJs ts = some t) :
    ((now - t).natAbs ≤ 300 →
      verifySlackSignature hmacHex now (some ts)
        (some ("v0=" ++ hmacHex secret ("v0:" ++ ts ++ ":" ++ body)))
        (some secret) body = Except.ok true) ∧
    ((now - t).natAbs ≤ 300 → ∀ (i : Nat) (c c' : Char),
      ("v0=" ++ hmacHex secret ("v0:" ++ ts ++ ":" ++ body)).data[i]? = some c →
      c' ≠ c →
      verifySlackSignature hmacHex now (some ts)
        (some (String.mk
          (("v0=" ++ hmacHex secret ("v0:" ++ ts ++ ":" ++ body)).data.set i c')))
        (some secret) body = Except.ok false) ∧
    (now - t = 301 →
      verifySlackSignature hmacHex now (some ts)
        (some ("v0=" ++ hmacHex secret ("v0:" ++ ts ++ ":" ++ body)))
        (some secret) body = Except.ok false) := by
  set goodSig := "v0=" ++ hmacHex secret ("v0:" ++ ts ++ ":" ++ body) with hgood
  have hglen : goodSig.length = 67 := by
    rw [hgood, String.length_append, hlen]
    decide
  have hfalsy : (falsyStr (some ts) || falsyStr (some goodSig)
      || falsyStr (some secret)) = false := by
    simp [falsyStr, hts, hsec]
    omega
  refine ⟨?_, ?_, ?_⟩
  · intro hwin
    have hwindow : tsOutsideWindow now ts = false := by
      simp [tsOutsideWindow, hparse]
      omega
    unfold verifySlackSignature
    rw [hfalsy]
    simp only [Bool.false_eq_true, if_false, Option.getD_some]
    rw [hwindow]
    simp only [Bool.false_eq_true, if_false]
    rw [← hgood]
    simp [timingSafeEqual]
  · intro hwin i c c' hget hne
    have hwindow : tsOutsideWindow now ts = false := by
      simp [tsOutsideWindow, hparse]
      omega
    obtain ⟨hi, -⟩ := List.getElem?_eq_some_iff.mp hget
    have hflen : (String.mk (goodSig.data.set i c')).length = goodSig.length := by
      show (goodSig.data.set i c').length = goodSig.data.length
      exact List.length_set _ _ _
    have hne' : String.mk (goodSig.data.set i c') ≠ goodSig := by
      intro hc
      have hdata : goodSig.data.set i c' = goodSig.data := congrArg String.data hc
      have h1 : (goodSig.data.set i c')[i]? = some c' := get?_set_self' _ _ _ hi
      rw [hdata, hget] at h1
      exact hne (Option.some.inj h1).symm
    have hfalsy2 : (falsyStr (some ts)
        || falsyStr (some (String.mk (goodSig.data.set i c')))
        || falsyStr (some secret)) = false := by
      simp [falsyStr, hts, hsec]
      omega
    unfold verifySlackSignature
    rw [hfalsy2]
    simp only [Bool.false_eq_true, if_false, Option.getD_some]
    rw [hwindow]
    simp only [Bool.false_eq_true, if_false]
    rw [← hgood]
    unfold timingSafeEqual
    rw [if_pos hflen.symm]
    have hbeq : (goodSig == String.mk (goodSig.data.set i c')) = false := by
      rw [beq_eq_false_iff_ne]
      exact fun hc => hne' hc.symm
    rw [hbeq]
  · intro h301
    have hwindow : tsOutsideWindow now ts = true := by
      simp [tsOutsideWindow, hparse, h301]
    unfold verifySlackSignature
    rw [hfalsy]
    simp only [Bool.false_eq_true, if_false, Option.getD_some]
    rw [hwindow]
    simp

/-- C1 witness: with the concrete 64-character digest stand-in, a request
stamped at time 100 and verified at time 100 with the matching signature
verifies true; flipping its first character makes it verify false; and
the same request verified at time 401 (301 seconds later) verifies
false. -/
theorem c1_signature_verification_witness :
    verifySlackSignature hexDigestStub 100 (some "100")
      (some ("v0=" ++ hexDigestStub "sek" ("v0:" ++ "100" ++ ":" ++ "payload")))
      (some "sek") "payload" = Except.ok true ∧
    verifySlackSignature hexDigestStub 100 (some "100")
      (some (String.mk
        (("v0=" ++ hexDigestStub "sek" ("v0:" ++ "100" ++ ":" ++ "payload")).data.set 0 'x')))
      (some "sek") "payload" = Except.ok false ∧
    verifySlackSignature hexDigestStub 401 (some "100")
      (some ("v0=" ++ hexDigestStub "sek" ("v0:" ++ "100" ++ ":" ++ "payload")))
      (some "sek") "payload" = Except.ok false := by
  have h100 := c1_signature_verification hexDigestStub (fun _ _ => rfl)
    100 "100" "sek" "payload" 100 (by decide) (by decide) (by decide)
  have h401 := c1_signature_verification hexDigestStub (fun _ _ => rfl)
    401 "100" "sek" "payload" 100 (by decide) (by decide) (by decide)
  refine ⟨h100.1 (by decide), ?_, h401.2.2 (by decide)⟩
  exact h100.2.1 (by decide) 0 'v' 'x' rfl (by decide)

/-- C3 amended: the verifier is not total — the underlying
crypto.timingSafeEqual throws when the two buffers differ in length.
What holds is: (i) it fails closed, returning false without raising,
whenever the timestamp header, the signature header or the secret is
absent or empty; (ii) it returns a boolean, never raising, for every
supplied signature of length 67 (the length of the computed
"v0=" + 64-hex-character digest), with false for any non-matching such
signature; (iii) but for a present signature whose length differs from
67, once the replay-window check passes, the comparison raises a
length-mismatch error instead of returning false. -/
theorem c3_verifier_totality_amended (hmacHex : String → String → String)
    (hlen : ∀ k m, (hmacHex k m).length = 64)
    (now : Int) (timestamp signature signingSecret : Option String)
    (body : String) :
    ((falsyStr timestamp || falsyStr signature || falsyStr signingSecret) = true →
      verifySlackSignature hmacHex now timestamp signature signingSecret body
        = Except.ok false) ∧
    (∀ s, signature = some s → s.length = 67 →
      ∃ b, verifySlackSignature hmacHex now timestamp signature signingSecret body
        = Except.ok b) ∧
    (∀ ts s sec, timestamp = some ts → signature = some s →
      signingSecret = some sec →
      (falsyStr timestamp || falsyStr signature || falsyStr signingSecret) = false →
      tsOutsideWindow now ts = false →
      s.length ≠ 67 →
      verifySlackSignature hmacHex now timestamp signature signingSecret body
        = Except.error ()) := by
  refine ⟨?_, ?_, ?_⟩
  · intro h
    unfold verifySlackSignature
    rw [h]
    simp
  · intro s hs hslen
    unfold verifySlackSignature
    by_cases hf : (falsyStr timestamp || falsyStr signature || falsyStr signingSecret) = true
    · rw [hf]
      exact ⟨false, by simp⟩
    · have hff := Bool.eq_false_iff.mpr hf
      rw [hff]
      simp only [Bool.false_eq_true, if_false]
      by_cases hw : tsOutsideWindow now (timestamp.getD "") = true
      · rw [hw]
        exact ⟨false, by simp⟩
      · have hwf := Bool.eq_false_iff.mpr hw
        rw [hwf]
        simp only [Bool.false_eq_true, if_false]
        refine ⟨("v0=" ++ hmacHex (signingSecret.getD "")
          ("v0:" ++ timestamp.getD "" ++ ":" ++ body)
            == signature.getD ""), ?_⟩
        unfold timingSafeEqual
        rw [if_pos]
        rw [hs, String.length_append, hlen, Option.getD_some, hslen]
        decide
  · intro ts s sec hts hs hsec hff hwf hlen67
    subst hts hs hsec
    unfold verifySlackSignature
    rw [hff]
    simp only [Bool.false_eq_true, if_false, Option.getD_some]
    rw [hwf]
    simp only [Bool.false_eq_true, if_false]
    unfold timingSafeEqual
    rw [if_neg]
    rw [String.length_append, hlen]
    have hv0 : ("v0=" : String).length = 3 := rfl
    rw [hv0]
    omega

/-- C3 counterexample: with every input present and a fresh timestamp, a
supplied signature of the wrong length ("x", one character instead of 67)
makes the verifier raise (the timingSafeEqual length mismatch) instead of
returning false — so verify is not a total predicate and does not return
false for every non-matching signature. -/
theorem c3_raises_on_short_signature_cex :
    verifySlackSignature hexDigestStub 100 (some "100") (some "x")
      (some "sek") "payload" = Except.error () := by
  rfl

/-- C3 witness: at concrete inputs, the three amended conjuncts — a
missing secret fails closed to false, a 67-character signature yields a
boolean verdict, and a 1-character signature raises. -/
theorem c3_verifier_totality_witness :
    verifySlackSignature hexDigestStub 100 (some "100")
      (some (String.mk (List.replicate 67 'x'))) none "payload"
      = Except.ok false ∧
    (∃ b, verifySlackSignature hexDigestStub 100 (some "100")
      (some (String.mk (List.replicate 67 'x'))) (some "sek") "payload"
      = Except.ok b) ∧
    verifySlackSignature hexDigestStub 100 (some "100") (some "zz")
      (some "sek") "payload" = Except.error () := by
  have h := c3_verifier_totality_amended hexDigestStub (fun _ _ => rfl)
    100 (some "100") (some (String.mk (List.replicate 67 'x'))) none "payload"
  have h2 := c3_verifier_totality_amended hexDigestStub (fun _ _ => rfl)
    100 (some "100") (some (String.mk (List.replicate 67 'x'))) (some "sek") "payload"
  have h3 := c3_verifier_totality_amended hexDigestStub (fun _ _ => rfl)
    100 (some "100") (some "zz") (some "sek") "payload"
  refine ⟨h.1 (by decide), h2.2.1 _ rfl (by decide), ?_⟩
  exact h3.2.2 "100" "zz" "sek" rfl rfl rfl (by decide) (by decide) (by decide)

/- ## C6 and C10: the chunking loop of postToSlack -/

theorem lastNlGo_some_of_best (limit : Nat) : ∀ (l : List Char) (i j : Nat),
    j < i → ∃ j', lastNlGo limit l i (some j) = some j' ∧ j ≤ j' := by
  intro l
  induction l with
  | nil => intro i j _; exact ⟨j, rfl, Nat.le_refl j⟩
  | cons c rest ih =>
    intro i j hj
    unfold lastNlGo
    by_cases hi : limit < i
    · simp only [hi, if_true]
      exact ⟨j, rfl, Nat.le_refl j⟩
    · simp only [hi, if_false]
      by_cases hc : c = '\n'
      · simp only [hc, if_pos rfl]
        obtain ⟨j', h1, h2⟩ := ih (i + 1) i (by omega)
        exact ⟨j', h1, by omega⟩
      · rw [if_neg hc]
        exact ih (i + 1) j (by omega)

theorem lastNlGo_found (limit : Nat) : ∀ (l : List Char) (d i : Nat)
    (best : Option Nat),
    l[d]? = some '\n' → i + d ≤ limit →
    (∀ k, best = some k → k < i) →
    ∃ j, lastNlGo limit l i best = some j ∧ i + d ≤ j := by
  intro l
  induction l with
  | nil => intro d i best hget; simp at hget
  | cons c rest ih =>
    intro d i best hget hle hbest
    unfold lastNlGo
    have hi : ¬ limit < i := by omega
    simp only [hi, if_false]
    cases d with
    | zero =>
      have hc : c = '\n' := by simpa using hget
      simp only [hc, if_pos rfl]
      obtain ⟨j, h1, h2⟩ := lastNlGo_some_of_best limit rest (i + 1) i (by omega)
      exact ⟨j, h1, by omega⟩
    | succ d' =>
      have hget' : rest[d']? = some '\n' := by simpa using hget
      have hb : ∀ k, (if c = '\n' then some i else best) = some k → k < i + 1 := by
        intro k hk
        by_cases hc : c = '\n'
        · rw [if_pos hc] at hk
          cases hk
          omega
        · rw [if_neg hc] at hk
          have := hbest k hk
          omega
      obtain ⟨j, h1, h2⟩ := ih d' (i + 1) _ hget' (by omega) hb
      exact ⟨j, h1, by omega⟩

theorem lastNlGo_sound (limit : Nat) : ∀ (l : List Char) (i : Nat)
    (best : Option Nat) (j : Nat),
    lastNlGo limit l i best = some j →
    best = some j ∨ (i ≤ j ∧ j ≤ limit ∧ l[j - i]? = some '\n') := by
  intro l
  induction l with
  | nil =>
    intro i best j h
    left
    simpa [lastNlGo] using h
  | cons c rest ih =>
    intro i best j h
    unfold lastNlGo at h
    by_cases hi : limit < i
    · rw [if_pos hi] at h
      exact Or.inl h
    · rw [if_neg hi] at h
      rcases ih (i + 1) _ j h with hbest | ⟨h1, h2, h3⟩
      · by_cases hc : c = '\n'
        · rw [if_pos hc] at hbest
          cases hbest
          right
          refine ⟨Nat.le_refl i, by omega, ?_⟩
          simp [hc]
        · rw [if_neg hc] at hbest
          exact Or.inl hbest
      · right
        refine ⟨by omega, h2, ?_⟩
        have hsub : j - i = (j - (i + 1)) + 1 := by omega
        rw [hsub]
        simpa using h3

theorem lastIndexOfNl_found (l : List Char) (i0 : Nat)
    (hget : l[i0]? = some '\n') (hle : i0 ≤ 3900) :
    ∃ j, lastIndexOfNl l 3900 = some j ∧ i0 ≤ j ∧ j ≤ 3900 ∧
      l[j]? = some '\n' := by
  obtain ⟨j, h1, h2⟩ := lastNlGo_found 3900 l i0 0 none
    (by simpa using hget) (by omega) (by intro k hk; cases hk)
  refine ⟨j, h1, by omega, ?_, ?_⟩
  · rcases lastNlGo_sound 3900 l 0 none j h1 with hc | ⟨_, hb, _⟩
    · cases hc
    · exact hb
  · rcases lastNlGo_sound 3900 l 0 none j h1 with hc | ⟨_, _, hn⟩
    · cases hc
    · simpa using hn

theorem chooseSplitIdx_le (rem : List Char) : chooseSplitIdx rem ≤ 3900 := by
  unfold chooseSplitIdx
  cases h : lastIndexOfNl rem 3900 with
  | none => exact Nat.le_refl _
  | some i =>
    rcases lastNlGo_sound 3900 rem 0 none i h with hc | ⟨_, hb, _⟩
    · cases hc
    · by_cases hi : i < 1950
      · simp [hi]
      · simp [hi]
        exact hb

theorem splitChunks_eq_cons (l : List Char) (h : 3900 < l.length) :
    splitChunks l = l.take (chooseSplitIdx l)
      :: splitChunks (l.drop (chooseSplitIdx l)) := by
  rw [splitChunks]
  rw [if_neg (by omega), if_neg (by omega)]

theorem splitChunks_len_le : ∀ (n : Nat) (l : List Char), l.length ≤ n →
    ∀ c ∈ splitChunks l, c.length ≤ 3900 := by
  intro n
  induction n with
  | zero =>
    intro l hl c hc
    have : l.length = 0 := by omega
    rw [splitChunks, if_pos this] at hc
    simp at hc
  | succ n ih =>
    intro l hl c hc
    by_cases h0 : l.length = 0
    · rw [splitChunks, if_pos h0] at hc
      simp at hc
    · by_cases h1 : l.length ≤ 3900
      · rw [splitChunks, if_neg h0, if_pos h1] at hc
        simp at hc
        subst hc
        omega
      · rw [splitChunks_eq_cons l (by omega)] at hc
        rcases List.mem_cons.mp hc with hhd | htl
        · subst hhd
          rw [List.length_take]
          have := chooseSplitIdx_le l
          omega
        · refine ih (l.drop (chooseSplitIdx l)) ?_ c htl
          rw [List.length_drop]
          have := chooseSplitIdx_ge l
          omega

/-- C6: every chunk the posting loop produces has at most 3900
characters; and whenever more than 3900 characters remain and a newline
sits in the admissible window (index between 1950 = maxLen/2 and 3900),
the loop splits at a newline rather than hard-cutting: the emitted chunk
is the prefix up to the chosen index, and the remainder — the next chunk's
start — begins with that newline. -/
theorem c6_chunk_bounds_and_newline (text : String) :
    (∀ c ∈ postToSlackChunks text, c.length ≤ 3900) ∧
    (3900 < text.data.length →
      (∃ i, 1950 ≤ i ∧ i ≤ 3900 ∧ text.data[i]? = some '\n') →
      postToSlackChunks text
        = text.data.take (chooseSplitIdx text.data)
            :: splitChunks (text.data.drop (chooseSplitIdx text.data)) ∧
      (text.data.drop (chooseSplitIdx text.data)).head? = some '\n') := by
  constructor
  · exact splitChunks_len_le text.data.length text.data (Nat.le_refl _)
  · intro hlong ⟨i0, hi0a, hi0b, hi0get⟩
    obtain ⟨j, hfind, hij, hj3900, hjget⟩ := lastIndexOfNl_found text.data i0 hi0get hi0b
    have hchoose : chooseSplitIdx text.data = j := by
      unfold chooseSplitIdx
      rw [hfind]
      show (if j < 1950 then 3900 else j) = j
      rw [if_neg (by omega)]
    refine ⟨splitChunks_eq_cons text.data hlong, ?_⟩
    rw [hchoose, List.head?_drop]
    exact hjget

/-- C6 witness: a 2-character text forms a single in-bound chunk; and on a
4501-character text with its only newline at index 3000 (inside the
admissible window), the remainder after the split starts with that
newline. -/
theorem c6_chunk_bounds_and_newline_witness :
    (['h', 'i'] ∈ postToSlackChunks (String.mk ['h', 'i']) ∧
      (['h', 'i'] : List Char).length ≤ 3900) ∧
    ((String.mk (List.replicate 3000 'a' ++ '\n' :: List.replicate 1500 'b')).data.drop
        (chooseSplitIdx (String.mk
          (List.replicate 3000 'a' ++ '\n' :: List.replicate 1500 'b')).data)).head?
      = some '\n' := by
  constructor
  · have hmem : ['h', 'i'] ∈ postToSlackChunks (String.mk ['h', 'i']) := by
      rw [postToSlackChunks]
      show ['h', 'i'] ∈ splitChunks ['h', 'i']
      rw [splitChunks]
      norm_num
    exact ⟨hmem, (c6_chunk_bounds_and_newline (String.mk ['h', 'i'])).1 _ hmem⟩
  · have hlen : (String.mk (List.replicate 3000 'a'
        ++ '\n' :: List.replicate 1500 'b')).data.length = 4501 := by
      show (List.replicate 3000 'a' ++ '\n' :: List.replicate 1500 'b').length = 4501
      rw [List.length_append, List.length_cons, List.length_replicate,
        List.length_replicate]
    have hget : (String.mk (List.replicate 3000 'a'
        ++ '\n' :: List.replicate 1500 'b')).data[3000]? = some '\n' := by
      show (List.replicate 3000 'a' ++ '\n' :: List.replicate 1500 'b')[3000]? = some '\n'
      rw [List.getElem?_append_right (by rw [List.length_replicate])]
      rw [List.length_replicate]
      simp only [Nat.sub_self, List.getElem?_cons_zero]
    exact ((c6_chunk_bounds_and_newline _).2 (by omega)
      ⟨3000, by omega, by omega, hget⟩).2

theorem splitChunks_join : ∀ (n : Nat) (l : List Char), l.length ≤ n →
    (splitChunks l).flatten = l := by
  intro n
  induction n with
  | zero =>
    intro l hl
    have h0 : l.length = 0 := by omega
    have hnil : l = [] := List.length_eq_zero.mp h0
    subst hnil
    rw [splitChunks]
    simp
  | succ n ih =>
    intro l hl
    by_cases h0 : l.length = 0
    · have hnil : l = [] := List.length_eq_zero.mp h0
      subst hnil
      rw [splitChunks]
      simp
    · by_cases h1 : l.length ≤ 3900
      · rw [splitChunks, if_neg h0, if_pos h1]
        simp
      · rw [splitChunks_eq_cons l (by omega)]
        rw [List.flatten_cons]
        rw [ih (l.drop (chooseSplitIdx l))
          (by rw [List.length_drop]; have := chooseSplitIdx_ge l; omega)]
        exact List.take_append_drop _ l

/-- C10: the chunking loop terminates — splitChunks is a total function
because every iteration on an over-long remainder removes at least 1950
characters, half the 3900 chunk limit — and it loses nothing: the chunks
it produces, concatenated in order, are exactly the original text. -/
theorem c10_split_preserves_text (text : String) :
    (postToSlackChunks text).flatten = text.data ∧
    (∀ rem : List Char, 1950 ≤ chooseSplitIdx rem) := by
  constructor
  · exact splitChunks_join text.data.length text.data (Nat.le_refl _)
  · exact chooseSplitIdx_ge

/- ## C2: failed verification means 401 and nothing else happens -/

/-- C2 amended: for a POST request, when a signing secret is configured
(and, for the actions endpoint, the payload parses), a verification that
returns false makes the handler respond 401 with no outbound call and no
post to the callback URL.  (When no signing secret is configured the
handlers skip verification entirely — see the counterexample: a request on
which the verifier, as specified, fails closed to false is then processed
normally.) -/
theorem c2_failed_verification_stops (rm : Remote) (arm : ActRemote)
    (env : Env) (hmacHex : String → String → String) (now : Int)
    (reqC : CmdRequest) (reqA : ActRequest)
    (hsec : falsyStr env.signingSecret = false) :
    (reqC.method = "POST" →
      verifySlackSignature hmacHex now reqC.tsHeader reqC.sigHeader
        env.signingSecret reqC.rawBody = Except.ok false →
      slackCommandsHandler rm env hmacHex now reqC = Except.ok ⟨401, []⟩) ∧
    (reqA.method = "POST" → reqA.parsed.isSome →
      verifySlackSignature hmacHex now reqA.tsHeader reqA.sigHeader
        env.signingSecret reqA.rawBody = Except.ok false →
      slackActionsHandler arm env hmacHex now reqA = Except.ok ⟨401, []⟩) := by
  constructor
  · intro hm hv
    unfold slackCommandsHandler
    rw [if_neg (by rw [hm]; simp)]
    rw [hsec, hv]
    rw [if_pos (by simp)]
  · intro hm hp hv
    unfold slackActionsHandler
    rw [if_neg (by rw [hm]; simp)]
    obtain ⟨p, hpeq⟩ := Option.isSome_iff_exists.mp hp
    rw [hpeq, hsec, hv]
    rfl

/-- The environment of the counterexample: no signing secret
configured. -/
def envNoSecret : Env := ⟨none, none, "owner", "repo"⟩

/-- A /deploy slash-command request with a callback URL. -/
def deployReq : CmdRequest :=
  ⟨"POST", some "100", some "forged", "/deploy", "", "alice",
   some "https://hooks.slack.example/resp", "rawbody"⟩

/-- C2 counterexample: on this request the verifier — which the spec says
fails closed (false) when the secret is absent — returns false, yet the
handler does not answer 401: it acknowledges with 200 and posts the
deploy-confirmation message to the callback URL, because the guard
`process.env.SLACK_SIGNING_SECRET && !verifySlackSignature(req)` skips
verification whenever the secret is not configured. -/
theorem c2_skipped_verification_cex :
    verifySlackSignature hexDigestStub 100 deployReq.tsHeader
      deployReq.sigHeader envNoSecret.signingSecret deployReq.rawBody
      = Except.ok false ∧
    slackCommandsHandler remoteStub envNoSecret hexDigestStub 100 deployReq
      = Except.ok ⟨200, ["https://hooks.slack.example/resp"]⟩ := by
  constructor
  · rfl
  · rfl

/-- The environment of the witness: a signing secret is configured. -/
def envWithSecret : Env := ⟨some "sek", none, "owner", "repo"⟩

/-- A stale (timestamp 0, verified at time 1000000) command request. -/
def staleReqC : CmdRequest :=
  ⟨"POST", some "0", some "sig", "/deploy", "", "alice",
   some "https://hooks.slack.example/resp", "raw"⟩

/-- A stale interactive-action request. -/
def staleReqA : ActRequest :=
  ⟨"POST", some "0", some "sig",
   some ⟨some "cancel_deploy", "", true, "alice",
         some "https://hooks.slack.example/resp"⟩, "raw"⟩

/-- C2 witness: with the secret configured, both handlers answer the
stale (hence failing-verification) request with 401 and make no outbound
call. -/
theorem c2_failed_verification_stops_witness :
    slackCommandsHandler remoteStub envWithSecret hexDigestStub 1000000
      staleReqC = Except.ok ⟨401, []⟩ ∧
    slackActionsHandler ⟨true, true⟩ envWithSecret hexDigestStub 1000000
      staleReqA = Except.ok ⟨401, []⟩ := by
  have h := c2_failed_verification_stops remoteStub ⟨true, true⟩ envWithSecret
    hexDigestStub 1000000 staleReqC staleReqA rfl
  exact ⟨h.1 rfl rfl, h.2 rfl rfl rfl⟩

/- ## C8: the notification formatter's fallback and the prototype-chain
holes in it -/

/-- C8 amended: buildMessage dispatches each of the six known kinds to
its builder, and an unrecognized kind produces the minimal fallback
message and never raises — provided the kind is also not one of the
property names the builders object literal inherits from
Object.prototype.  For those names the `!builder` test is bypassed by a
truthy inherited value: the proto-accessor kind makes the call throw
TypeError (the inherited value is the non-callable prototype object),
"toString" returns the bare string "[object Undefined]" instead of a
message, "constructor" returns the data bag itself, and every other
inherited method name throws TypeError on its undefined receiver.  So
format is neither total nor fallback-complete over all kinds outside the
closed enum. -/
theorem c8_format_fallback_amended (nowStr : String) (d : NotifyData) :
    (∀ type : String, type ∉ knownNotifyKinds → type ∉ objectProtoKeys →
      buildMessage nowStr type d
        = Except.ok (BuildOutcome.message
            (SlackMessage.plain ("[" ++ type ++ "] " ++ stringifyNotifyData d)))) ∧
    buildMessage nowStr "bug" d
      = Except.ok (BuildOutcome.message (buildBugMessage d)) ∧
    buildMessage nowStr "feature" d
      = Except.ok (BuildOutcome.message (buildFeatureMessage d)) ∧
    buildMessage nowStr "deployment" d
      = Except.ok (BuildOutcome.message (buildDeploymentMessage d)) ∧
    buildMessage nowStr "digest" d
      = Except.ok (BuildOutcome.message (buildDigestMessage nowStr d)) ∧
    buildMessage nowStr "incident" d
      = Except.ok (BuildOutcome.message (buildIncidentMessage nowStr d)) ∧
    buildMessage nowStr "pr" d
      = Except.ok (BuildOutcome.message (buildPRMessage d)) ∧
    buildMessage nowStr "__proto__" d = Except.error () ∧
    buildMessage nowStr "toString" d
      = Except.ok (BuildOutcome.rawString "[object Undefined]") ∧
    buildMessage nowStr "constructor" d = Except.ok BuildOutcome.rawData ∧
    (∀ type ∈ objectProtoKeys, type ≠ "toString" → type ≠ "constructor" →
      buildMessage nowStr type d = Except.error ()) := by
  refine ⟨?_, rfl, rfl, rfl, rfl, rfl, rfl, rfl, rfl, rfl, ?_⟩
  · intro type hk hp
    simp only [knownNotifyKinds, List.mem_cons, List.mem_singleton] at hk
    push_neg at hk
    obtain ⟨h1, h2, h3, h4, h5, h6, -⟩ := hk
    have h7 : type ≠ "toString" := fun hc => hp (by rw [hc]; decide)
    have h8 : type ≠ "constructor" := fun hc => hp (by rw [hc]; decide)
    unfold buildMessage
    rw [if_neg h1, if_neg h2, if_neg h3, if_neg h4, if_neg h5, if_neg h6,
      if_neg h7, if_neg h8, if_neg hp]
  · intro type hmem hne1 hne2
    simp only [objectProtoKeys, List.mem_cons, List.not_mem_nil,
      or_false] at hmem
    rcases hmem with rfl | rfl | rfl | rfl | rfl | rfl | rfl | rfl | rfl
      | rfl | rfl | rfl
    all_goals first
      | rfl
      | exact absurd rfl hne1
      | exact absurd rfl hne2

/-- C8 counterexample: the proto-accessor kind (the first conjunct's
literal) reaches `builder(data)` with the inherited, non-callable
prototype object and the code throws a TypeError instead of returning a
message; the kind
"toString" skips the fallback and returns a bare string, not the minimal
fallback message — so format is not total over kinds outside the closed
enum, and an unrecognized kind does not always produce the fallback. -/
theorem c8_proto_kind_raises_cex :
    buildMessage "2026-10-12" "__proto__" emptyNotifyData = Except.error () ∧
    buildMessage "2026-10-12" "toString" emptyNotifyData
      = Except.ok (BuildOutcome.rawString "[object Undefined]") ∧
    buildMessage "2026-10-12" "toString" emptyNotifyData
      ≠ Except.ok (BuildOutcome.message (SlackMessage.plain
          ("[" ++ "toString" ++ "] " ++ stringifyNotifyData emptyNotifyData))) := by
  refine ⟨rfl, rfl, ?_⟩
  intro hc
  rw [show buildMessage "2026-10-12" "toString" emptyNotifyData
      = Except.ok (BuildOutcome.rawString "[object Undefined]") from rfl] at hc
  simp at hc

/-- C8 witness: the unrecognized, non-inherited kind "frobnicate" on the
empty data bag produces exactly the minimal fallback message, and the
inherited method name "valueOf" makes the dispatch throw. -/
theorem c8_format_fallback_amended_witness :
    ("frobnicate" ∉ knownNotifyKinds ∧ "frobnicate" ∉ objectProtoKeys) ∧
    buildMessage "2026-10-12" "frobnicate" emptyNotifyData
      = Except.ok (BuildOutcome.message (SlackMessage.plain
          ("[" ++ "frobnicate" ++ "] " ++ stringifyNotifyData emptyNotifyData))) ∧
    buildMessage "2026-10-12" "valueOf" emptyNotifyData = Except.error () := by
  have h := c8_format_fallback_amended "2026-10-12" emptyNotifyData
  refine ⟨⟨by decide, by decide⟩,
    h.1 "frobnicate" (by decide) (by decide), ?_⟩
  have hrest := h.2.2.2.2.2.2.2.2.2.2
  exact hrest "valueOf" (by decide) (by decide) (by decide)
